import Mathlib

/-!
Shallow embedding of the tdmatrixbot repository (src/tdmatrixbot) in Lean 4.

Python data and operations are translated as follows: JSON events (dicts)
become structures with `Option` fields (a missing key is `none`); exceptions
become `Except`; the HTTP collaborators (homeserver, RTC focus) are passed in
as explicit environments of functions so that the control flow of the bot's
own code is what the definitions capture.
-/

namespace TDMatrixBot

/-! ## String helpers

Structural (kernel-reducible) counterparts of the Python string operations
used by the bot: `body.split(" ")`, `" ".join(parts)`, `str.startswith`,
`str.removeprefix`, `str.strip`.
-/

/-- Auxiliary for `splitSpace`: accumulates the current word (reversed). -/
def splitSpaceAux : List Char → List Char → List String
  | [], acc => [String.mk acc.reverse]
  | c :: rest, acc =>
    if c = ' ' then String.mk acc.reverse :: splitSpaceAux rest []
    else splitSpaceAux rest (c :: acc)

/-- Python `s.split(" ")`: split on every single space, keeping empty parts;
never returns an empty list. -/
def splitSpace (s : String) : List String :=
  splitSpaceAux s.toList []

/-- Python `" ".join(l)`. -/
def joinSpace : List String → String
  | [] => ""
  | [s] => s
  | s :: rest => s ++ " " ++ joinSpace rest

/-- Python `s.startswith(p)`. -/
def strStartsWith (s p : String) : Bool :=
  p.toList.isPrefixOf s.toList

/-- Drop the first `n` characters of `s`. -/
def strDrop (s : String) (n : Nat) : String :=
  String.mk (s.toList.drop n)

/-- Python `s.removeprefix(p)`: drop `p` only when it is actually a prefix. -/
def dropPfx (s p : String) : String :=
  if strStartsWith s p then strDrop s p.toList.length else s

/-- Python `s.strip()`: remove leading and trailing whitespace. -/
def trimChars (s : String) : String :=
  String.mk (((s.toList.dropWhile Char.isWhitespace).reverse.dropWhile
    Char.isWhitespace).reverse)

/-! ## Cursor store (`MatrixBot._load_next_batch` / `MatrixBot._save_next_batch`)

The cursor file is modelled by an `Option String`: `none` is an absent file,
`some c` is a file with content `c`. A token passed to save is modelled by an
`Option String`: `none` stands for a non-string value (Python `None`, as when
the sync response has no `next_batch` key), mirroring the
`isinstance(token, str)` check.
-/

/-- `MatrixBot._load_next_batch`: read the file if it exists; blank content
(`read_text().strip() or None`) counts as no cursor. -/
def load_next_batch (store : Option String) : Option String :=
  match store with
  | none => none
  | some c =>
    let t := trimChars c
    if t = "" then none else some t

/-- `MatrixBot._save_next_batch`: write the token, but only when the cursor
file already exists and the token is a string. -/
def save_next_batch (store : Option String) (token : Option String) :
    Option String :=
  match store, token with
  | some _, some t => some t
  | s, _ => s

/-! ## Command parsing (inline in `MatrixBot.run`, lines 182-197)

`body_parts = body.split(" "); cmd_str = body_parts[0]`; the event is a
command invocation only when `cmd_str` starts with the configured prefix;
then `cmd_name = cmd_str.removeprefix(cmd_prefix)` and
`cmd_value = " ".join(body_parts[1:])`.
-/

/-- Parse a message body into `(command name, argument)` using the bot's
command marker `pfx`; `none` when the first word does not start with it. -/
def parseCmd (pfx body : String) : Option (String × String) :=
  let parts := splitSpace body
  let cmdStr := parts.headD ""
  if strStartsWith cmdStr pfx then
    some (dropPfx cmdStr pfx, joinSpace parts.tail)
  else
    none

/-! ## RTC focus selection (`MatrixClientConfig.rtc_foci_preferred`,
`MatrixBot.run` lines 139-143) -/

/-- One entry of `org.matrix.msc4143.rtc_foci` (`MatrixClientRtcFocus`). -/
structure MatrixClientRtcFocus where
  type : String
  livekit_service_url : Option String := none
deriving DecidableEq, Repr

/-- `MatrixClientConfig.rtc_foci_preferred`: the first candidate with
`type == "livekit"` if one exists, else the first candidate with another
type, else `None`. -/
def rtc_foci_preferred (rtc_foci : List MatrixClientRtcFocus) :
    Option MatrixClientRtcFocus :=
  let preferred := rtc_foci.find? (fun f => f.type == "livekit")
  let fallback := rtc_foci.find? (fun f => f.type != "livekit")
  preferred.orElse (fun _ => fallback)

/-- The startup guard in `MatrixBot.run`: `if not rtc_foci_preferred: raise
ValueError(...)`. -/
def startup_select_focus (rtc_foci : List MatrixClientRtcFocus) :
    Except String MatrixClientRtcFocus :=
  match rtc_foci_preferred rtc_foci with
  | none =>
    .error "\"org.matrix.msc4143.rtc_foci\" is missing, and is required by TDMatrixBot"
  | some f => .ok f

/-! ## Events and rooms (`types.py`) -/

/-- A message body as found in event content: Python distinguishes string
bodies (`isinstance(body, str)`) from any other JSON value. -/
inductive BodyVal where
  | str (s : String)
  | nonString
deriving DecidableEq, Repr

/-- The `content` sub-dict of an event; every key may be absent. -/
structure EventContent where
  name : Option String := none
  topic : Option String := none
  room_alias : Option String := none
  membership : Option String := none
  body : Option BodyVal := none
deriving DecidableEq, Repr

/-- A Matrix event as a dict with optional keys (both state events and
timeline events are such dicts in the source). -/
structure MEvent where
  type : Option String := none
  room_id : Option String := none
  user_id : Option String := none
  state_key : Option String := none
  sender : Option String := none
  content : Option EventContent := none
deriving DecidableEq, Repr

/-- `MatrixRoom` (dataclass in `types.py`). -/
structure MatrixRoom where
  id : String
  name : String
  topic : Option String := none
  room_alias : Option String := none
  members : List String := []
deriving DecidableEq, Repr

/-- Python `d[k]`: a missing key raises `KeyError`. -/
def getKey {α : Type} (o : Option α) (k : String) : Except String α :=
  match o with
  | some v => .ok v
  | none => .error ("KeyError: " ++ k)

/-- The `topic` argument of `MatrixRoom.from_state_events`: the first
"m.room.topic" state event's `content.topic`, `none` when no such event;
a first matching event missing the keys raises. -/
def topic_from_state (state_events : List MEvent) : Except String (Option String) :=
  match state_events.find? (fun e => e.type == some "m.room.topic") with
  | none => .ok none
  | some e =>
    match getKey e.content "content" with
    | .error m => .error m
    | .ok c =>
      match getKey c.topic "topic" with
      | .error m => .error m
      | .ok t => .ok (some t)

/-- The `alias` argument of `MatrixRoom.from_state_events`: the first
"m.room.canonical_alias" state event's `content.alias`. -/
def alias_from_state (state_events : List MEvent) : Except String (Option String) :=
  match state_events.find? (fun e => e.type == some "m.room.canonical_alias") with
  | none => .ok none
  | some e =>
    match getKey e.content "content" with
    | .error m => .error m
    | .ok c =>
      match getKey c.room_alias "alias" with
      | .error m => .error m
      | .ok a => .ok (some a)

/-- The `members` argument of `MatrixRoom.from_state_events`: `user_id` of
every "m.room.member" state event whose `content.membership` is "join". -/
def members_from_state (state_events : List MEvent) : Except String (List String) :=
  (state_events.filter (fun e =>
      e.type == some "m.room.member" &&
      (e.content.bind (fun c => c.membership)) == some "join")).mapM
    (fun e => getKey e.user_id "user_id")

/-- `MatrixRoom.from_state_events`: raises when no "m.room.name" state event
exists; otherwise builds the room from the snapshot, raising `KeyError` when
an accessed key is missing. -/
def from_state_events (state_events : List MEvent) : Except String MatrixRoom :=
  match state_events.find? (fun e => e.type == some "m.room.name") with
  | none => .error "unable to find \"m.room.name\" state-event"
  | some ev =>
    match getKey ev.room_id "room_id" with
    | .error m => .error m
    | .ok rid =>
      match getKey ev.content "content" with
      | .error m => .error m
      | .ok c =>
        match getKey c.name "name" with
        | .error m => .error m
        | .ok nm =>
          match topic_from_state state_events with
          | .error m => .error m
          | .ok tp =>
            match alias_from_state state_events with
            | .error m => .error m
            | .ok al =>
              match members_from_state state_events with
              | .error m => .error m
              | .ok ms => .ok ⟨rid, nm, tp, al, ms⟩

/-! ## Sync loop and dispatcher (`MatrixBot.run`, lines 154-207)

The homeserver and the registered command handlers are an explicit
environment; the observable behaviour of one loop iteration is a trace of
actions in the order the code performs them.
-/

/-- The per-room part of a sync response: `rooms.join.<room_id>.timeline.events`. -/
structure RoomSync where
  room_id : String
  events : List MEvent
deriving DecidableEq, Repr

/-- A `/sync` response: its `next_batch` token (absent key modelled as
`none`) and the joined rooms' timelines in delivery order. -/
structure SyncResponse where
  next_batch : Option String := none
  rooms : List RoomSync := []
deriving DecidableEq, Repr

/-- Observable actions of the loop, in temporal order. -/
inductive Action where
  | syncCall (since : Option String) (timeout_ms : Nat)
  | saveCursor (token : Option String)
  | handlerCall (cmd : String) (room_id : String) (arg : String)
  | sendMessage (room_id : String) (body : String)
deriving DecidableEq, Repr

/-- The loop's mutable state: the in-memory `next_batch` variable and the
cursor file. -/
structure LoopState where
  next_batch : Option String
  store : Option String
deriving DecidableEq, Repr

/-- External collaborators of the dispatch loop: the homeserver's
`room_state` call and the registry `MatrixBot._commands` (lookup by name;
a handler returns `()` or raises an error message). -/
structure SyncEnv where
  room_state : String → Except String (List MEvent)
  commands : String → Option (MatrixRoom → MEvent → String → Except String Unit)

/-- The body of a timeline event: `event.get("content", {}).get("body", "")`. -/
def bodyOf (e : MEvent) : BodyVal :=
  match e.content with
  | none => .str ""
  | some c => c.body.getD (.str "")

/-- Processing of one timeline event in `MatrixBot.run`: filter to message
events with a string body, parse the command, fetch the room state and build
the room, look up the command, run the handler and turn a handler error into
a "COMMAND ERROR" chat reply. Errors outside the handler propagate. -/
def process_event (env : SyncEnv) (pfx : String) (rid : String) (ev : MEvent) :
    Except String (List Action) :=
  if ev.type == some "m.room.message" then
    match bodyOf ev with
    | .nonString => .ok []
    | .str body =>
      match parseCmd pfx body with
      | none => .ok []
      | some (n, v) =>
        match env.room_state rid with
        | .error m => .error m
        | .ok st =>
          match from_state_events st with
          | .error m => .error m
          | .ok room =>
            match env.commands n with
            | none => .ok []
            | some h =>
              match h room ev v with
              | .ok _ => .ok [.handlerCall n rid v]
              | .error m =>
                .ok [.handlerCall n rid v,
                     .sendMessage room.id ("COMMAND ERROR:\n" ++ m)]
  else .ok []

/-- Process the timeline events of one joined room, in delivery order. -/
def process_room (env : SyncEnv) (pfx : String) (rid : String) :
    List MEvent → Except String (List Action)
  | [] => .ok []
  | e :: rest =>
    match process_event env pfx rid e with
    | .error m => .error m
    | .ok a =>
      match process_room env pfx rid rest with
      | .error m => .error m
      | .ok b => .ok (a ++ b)

/-- Process every joined room of a sync response, in delivery order. -/
def process_batch (env : SyncEnv) (pfx : String) :
    List RoomSync → Except String (List Action)
  | [] => .ok []
  | r :: rest =>
    match process_room env pfx r.room_id r.events with
    | .error m => .error m
    | .ok a =>
      match process_batch env pfx rest with
      | .error m => .error m
      | .ok b => .ok (a ++ b)

/-- One iteration of the `while True` poll loop (`MatrixBot.run`, lines
164-207): sync, take `next_batch` from the response, save it, then process
the batch. The trace records the actions in the order the code performs
them. -/
def sync_step (env : SyncEnv) (pfx : String) (s : LoopState)
    (resp : SyncResponse) : Except String (LoopState × List Action) :=
  match process_batch env pfx resp.rooms with
  | .error m => .error m
  | .ok acts =>
    .ok ({ next_batch := resp.next_batch,
           store := save_next_batch s.store resp.next_batch },
         .syncCall s.next_batch 30000 :: .saveCursor resp.next_batch :: acts)

/-- The cursor bootstrap in `MatrixBot.run` (lines 154-161): when no cursor
loads, do one `sync(timeout_ms=0)` (its response is `resp`), keep only its
`next_batch` and save it; no event of that response is processed. -/
def bootstrap (store : Option String) (resp : SyncResponse) :
    LoopState × List Action :=
  match load_next_batch store with
  | some nb => ({ next_batch := some nb, store := store }, [])
  | none =>
    ({ next_batch := resp.next_batch,
       store := save_next_batch store resp.next_batch },
     [.syncCall none 0, .saveCursor resp.next_batch])

/-- True for dispatch actions (handler invocations). -/
def isHandlerCall : Action → Bool
  | .handlerCall _ _ _ => true
  | _ => false

/-- True for cursor-persistence actions. -/
def isSaveCursor : Action → Bool
  | .saveCursor _ => true
  | _ => false

/-- A trace persists the cursor only after all dispatches exactly when no
handler call occurs at or after the first `saveCursor`. -/
def noHandlerAfterSave (acts : List Action) : Bool :=
  (acts.dropWhile (fun a => !(isSaveCursor a))).all (fun a => !(isHandlerCall a))

/-- Reference dispatch decision for one timeline event, written directly
from the spec's dispatch description: a message event with a string body
whose first word carries the command marker and whose name is registered is
dispatched with the space-joined remainder. -/
def matchedCommand (env : SyncEnv) (pfx rid : String) (ev : MEvent) :
    Option Action :=
  if ev.type == some "m.room.message" then
    match bodyOf ev with
    | .nonString => none
    | .str body =>
      match parseCmd pfx body with
      | none => none
      | some (n, v) =>
        if (env.commands n).isSome then some (.handlerCall n rid v) else none
  else none

/-- The dispatches a batch should produce, in homeserver delivery order. -/
def specDispatch (env : SyncEnv) (pfx : String) (rooms : List RoomSync) :
    List Action :=
  (rooms.map (fun r => r.events.filterMap (matchedCommand env pfx r.room_id))).flatten

/-! ## Theorems for the cursor store, command parsing and focus selection -/

/-- C6: for every cursor value (a string), `save(cursor)` overwrites the
stored value exactly when the cursor file already exists, and the existence
check is the only gating condition for string cursors. -/
theorem c6_save_gated_on_existence (store : Option String) (t : String) :
    save_next_batch store (some t) = if store.isSome then some t else store := by
  cases store <;> rfl

/-- C7 counterexample: the round-trip fails as universally stated; with a
pre-existing store, saving the cursor string " " and loading returns no
cursor (blank content is trimmed away), not " ". -/
theorem c7_roundtrip_counterexample :
    load_next_batch (save_next_batch (some "old") (some " ")) ≠ some " " := by
  decide

/-- C7 amended: the round-trip `save(x); load() = x` holds for every cursor
string `x` that is nonempty and free of leading/trailing whitespace
(`trimChars x = x`), provided the store pre-exists; `load()` on a fresh store
(absent file or blank content) returns no cursor. -/
theorem c7_roundtrip_amended :
    (∀ (c x : String), trimChars x = x → x ≠ "" →
      load_next_batch (save_next_batch (some c) (some x)) = some x) ∧
    load_next_batch none = none ∧
    (∀ b : String, trimChars b = "" → load_next_batch (some b) = none) := by
  refine ⟨fun c x h1 h2 => ?_, rfl, fun b h => ?_⟩
  · simp only [save_next_batch, load_next_batch, h1]
    simp [h2]
  · simp [load_next_batch, h]

/-- C7 witness: the amended round-trip evaluated at the concrete cursor
"s1" over the pre-existing store content "old". -/
theorem c7_roundtrip_witness :
    load_next_batch (save_next_batch (some "old") (some "s1")) = some "s1" :=
  c7_roundtrip_amended.1 "old" "s1" rfl (by decide)

/-- C9: command parsing with the marker "!": "!ping extra words" yields name
"ping" and argument "extra words" (the space-joined remainder); "hello"
yields no invocation; "!" alone yields the empty command name. -/
theorem c9_command_parsing :
    parseCmd "!" "!ping extra words" = some ("ping", "extra words") ∧
    parseCmd "!" "hello" = none ∧
    parseCmd "!" "!" = some ("", "") :=
  ⟨rfl, rfl, rfl⟩

/-- C8: focus selection is deterministic: a "livekit" candidate is selected
whenever one exists anywhere in the list; with no "livekit" candidate the
first other candidate is selected; the empty list selects nothing and the
startup guard fails. -/
theorem c8_focus_selection (foci : List MatrixClientRtcFocus) :
    ((∃ f ∈ foci, f.type = "livekit") →
      ∃ g, rtc_foci_preferred foci = some g ∧ g.type = "livekit") ∧
    ((∀ f ∈ foci, f.type ≠ "livekit") → rtc_foci_preferred foci = foci.head?) ∧
    rtc_foci_preferred [] = none ∧
    startup_select_focus [] =
      .error "\"org.matrix.msc4143.rtc_foci\" is missing, and is required by TDMatrixBot" := by
  refine ⟨fun hex => ?_, fun hall => ?_, rfl, rfl⟩
  · have hsome : (foci.find? (fun f => f.type == "livekit")).isSome := by
      rw [List.find?_isSome]
      obtain ⟨f, hf, ht⟩ := hex
      exact ⟨f, hf, by simp [ht]⟩
    obtain ⟨g, hg⟩ := Option.isSome_iff_exists.mp hsome
    have hgt : g.type = "livekit" := by
      have := List.find?_some hg
      simpa using this
    refine ⟨g, ?_, hgt⟩
    simp [rtc_foci_preferred, hg, Option.orElse]
  · have hnone : foci.find? (fun f => f.type == "livekit") = none := by
      rw [List.find?_eq_none]
      intro f hf
      simpa using hall f hf
    unfold rtc_foci_preferred
    rw [hnone]
    cases foci with
    | nil => rfl
    | cons f rest =>
      have hft : (f.type != "livekit") = true := by
        simpa using hall f (List.mem_cons_self f rest)
      have hre : (none : Option MatrixClientRtcFocus).orElse
          (fun _ => List.find? (fun g => g.type != "livekit") (f :: rest)) =
          List.find? (fun g => g.type != "livekit") (f :: rest) := rfl
      rw [hre, @List.find?_cons_of_pos _ (fun g => g.type != "livekit") f rest hft]
      rfl

/-- C8 witness: with candidates [other, livekit("u")] the selection returns
the livekit entry even though it is listed second. -/
theorem c8_focus_selection_witness :
    ∃ g, rtc_foci_preferred
        [⟨"other", none⟩, ⟨"livekit", some "u"⟩] = some g ∧ g.type = "livekit" :=
  (c8_focus_selection [⟨"other", none⟩, ⟨"livekit", some "u"⟩]).1
    ⟨⟨"livekit", some "u"⟩, by simp, rfl⟩

/-! ## Dispatch-order helper lemmas -/

/-- The handler calls emitted for one event are exactly the reference
dispatch decision for that event. -/
theorem process_event_handlers (env : SyncEnv) (pfx rid : String) (ev : MEvent)
    (acts : List Action) (h : process_event env pfx rid ev = .ok acts) :
    acts.filter isHandlerCall = (matchedCommand env pfx rid ev).toList := by
  unfold process_event at h
  unfold matchedCommand
  by_cases hty : (ev.type == some "m.room.message") = true
  · simp only [hty, if_true] at h ⊢
    cases hb : bodyOf ev with
    | nonString => simp only [hb] at h ⊢; injection h with h; subst h; rfl
    | str body =>
      simp only [hb] at h ⊢
      cases hp : parseCmd pfx body with
      | none => simp only [hp] at h ⊢; injection h with h; subst h; rfl
      | some nv =>
        obtain ⟨n, v⟩ := nv
        simp only [hp] at h ⊢
        cases hst : env.room_state rid with
        | error m => simp only [hst] at h; exact absurd h (by simp)
        | ok st =>
          simp only [hst] at h
          cases hroom : from_state_events st with
          | error m => simp only [hroom] at h; exact absurd h (by simp)
          | ok room =>
            simp only [hroom] at h
            cases hcmd : env.commands n with
            | none => simp only [hcmd] at h ⊢; injection h with h; subst h; rfl
            | some hd =>
              simp only [hcmd, Option.isSome_some, if_true] at h ⊢
              cases hh : hd room ev v with
              | ok u =>
                simp only [hh] at h; injection h with h; subst h
                simp [isHandlerCall]
              | error m =>
                simp only [hh] at h; injection h with h; subst h
                simp [isHandlerCall]
  · rw [if_neg hty] at h
    injection h with h; subst h
    rw [if_neg hty]
    rfl

/-- The handler calls emitted for one room are the reference dispatches of
its events, in delivery order. -/
theorem process_room_handlers (env : SyncEnv) (pfx rid : String)
    (evs : List MEvent) (acts : List Action)
    (h : process_room env pfx rid evs = .ok acts) :
    acts.filter isHandlerCall = evs.filterMap (matchedCommand env pfx rid) := by
  induction evs generalizing acts with
  | nil => unfold process_room at h; injection h with h; subst h; rfl
  | cons e rest ih =>
    unfold process_room at h
    cases he : process_event env pfx rid e with
    | error m => rw [he] at h; exact absurd h (by simp)
    | ok a =>
      rw [he] at h
      cases hr : process_room env pfx rid rest with
      | error m => rw [hr] at h; exact absurd h (by simp)
      | ok b =>
        rw [hr] at h
        injection h with h
        subst h
        rw [List.filter_append, process_event_handlers env pfx rid e a he, ih b hr]
        cases hm : matchedCommand env pfx rid e <;> simp [List.filterMap_cons, hm]

/-- The handler calls emitted for one batch are the reference dispatches of
its rooms' events, in delivery order. -/
theorem process_batch_handlers (env : SyncEnv) (pfx : String)
    (rooms : List RoomSync) (acts : List Action)
    (h : process_batch env pfx rooms = .ok acts) :
    acts.filter isHandlerCall = specDispatch env pfx rooms := by
  induction rooms generalizing acts with
  | nil => unfold process_batch at h; injection h with h; subst h; rfl
  | cons r rest ih =>
    unfold process_batch at h
    cases hr : process_room env pfx r.room_id r.events with
    | error m => rw [hr] at h; exact absurd h (by simp)
    | ok a =>
      rw [hr] at h
      cases hb : process_batch env pfx rest with
      | error m => rw [hb] at h; exact absurd h (by simp)
      | ok b =>
        rw [hb] at h
        injection h with h
        subst h
        rw [List.filter_append, process_room_handlers env pfx r.room_id r.events a hr,
          ih b hb]
        simp [specDispatch]

/-! ## C1: dispatch order and cursor timing -/

/-- Concrete three-command environment used to exercise a batch. -/
def envC1 : SyncEnv :=
  { room_state := fun _ =>
      .ok [{ type := some "m.room.name", room_id := some "!r:hs",
             content := some { name := some "Room" } }],
    commands := fun n =>
      if n == "a" || n == "b" || n == "c" then some (fun _ _ _ => .ok ()) else none }

/-- A plain-text message event with the given body. -/
def msgEvt (b : String) : MEvent :=
  { type := some "m.room.message", content := some { body := some (.str b) } }

/-- A batch delivering three matching command events E1, E2, E3 in order. -/
def respC1 : SyncResponse :=
  { next_batch := some "s2",
    rooms := [⟨"!r:hs", [msgEvt "!a 1", msgEvt "!b 2", msgEvt "!c 3"]⟩] }

/-- The trace one loop iteration produces on `respC1`. -/
def traceC1 : List Action :=
  [.syncCall (some "s1") 30000, .saveCursor (some "s2"),
   .handlerCall "a" "!r:hs" "1", .handlerCall "b" "!r:hs" "2",
   .handlerCall "c" "!r:hs" "3"]

/-- C1 counterexample: on a batch with matching events E1, E2, E3 the loop
persists the cursor BEFORE dispatching the three handlers (the `saveCursor`
action precedes every `handlerCall` in the trace), refuting "the cursor is
persisted only after all three have been dispatched". -/
theorem c1_cursor_before_dispatch_counterexample :
    sync_step envC1 "!" ⟨some "s1", some "s0"⟩ respC1 =
      .ok (⟨some "s2", some "s2"⟩, traceC1) ∧
    noHandlerAfterSave traceC1 = false :=
  ⟨rfl, rfl⟩

/-- C1 amended: events within one batch are dispatched in the order
delivered by the homeserver, but the cursor for the next poll is advanced
and persisted immediately after the sync response arrives, before the batch
is processed (at-most-once, not at-least-once, delivery on a crash
mid-batch). -/
theorem c1_dispatch_order_amended (env : SyncEnv) (pfx : String)
    (s : LoopState) (resp : SyncResponse) (s2 : LoopState) (acts : List Action)
    (h : sync_step env pfx s resp = .ok (s2, acts)) :
    ∃ pacts,
      acts = .syncCall s.next_batch 30000 :: .saveCursor resp.next_batch :: pacts ∧
      pacts.filter isHandlerCall = specDispatch env pfx resp.rooms ∧
      s2.store = save_next_batch s.store resp.next_batch := by
  unfold sync_step at h
  cases hb : process_batch env pfx resp.rooms with
  | error m => rw [hb] at h; exact absurd h (by simp)
  | ok pacts =>
    rw [hb] at h
    injection h with h
    rw [Prod.mk.injEq] at h
    obtain ⟨h1, h2⟩ := h
    subst h2
    refine ⟨pacts, rfl, process_batch_handlers env pfx resp.rooms pacts hb, ?_⟩
    rw [← h1]

/-- C1 witness: the amended statement evaluated on the concrete batch. -/
theorem c1_dispatch_order_witness :
    ∃ pacts,
      traceC1 = .syncCall (some "s1") 30000 :: .saveCursor (some "s2") :: pacts ∧
      pacts.filter isHandlerCall = specDispatch envC1 "!" respC1.rooms ∧
      (⟨some "s2", some "s2"⟩ : LoopState).store =
        save_next_batch (some "s0") (some "s2") :=
  c1_dispatch_order_amended envC1 "!" ⟨some "s1", some "s0"⟩ respC1
    ⟨some "s2", some "s2"⟩ traceC1 rfl

/-! ## C4: handler errors become chat replies -/

/-- C4: an error raised by a command handler is caught at the dispatch
boundary: the event's processing succeeds and emits a "COMMAND ERROR" chat
reply carrying the error's description to the room the command came from,
and the loop goes on to process the remaining events instead of crashing. -/
theorem c4_handler_error_reply (env : SyncEnv) (pfx rid : String) (ev : MEvent)
    (body n v : String) (st : List MEvent) (room : MatrixRoom)
    (hd : MatrixRoom → MEvent → String → Except String Unit) (m : String)
    (hty : ev.type = some "m.room.message")
    (hbody : bodyOf ev = .str body)
    (hparse : parseCmd pfx body = some (n, v))
    (hst : env.room_state rid = .ok st)
    (hroom : from_state_events st = .ok room)
    (hcmd : env.commands n = some hd)
    (hh : hd room ev v = .error m) :
    process_event env pfx rid ev =
      .ok [.handlerCall n rid v,
           .sendMessage room.id ("COMMAND ERROR:\n" ++ m)] ∧
    (∀ rest racts, process_room env pfx rid rest = .ok racts →
      process_room env pfx rid (ev :: rest) =
        .ok (.handlerCall n rid v ::
             .sendMessage room.id ("COMMAND ERROR:\n" ++ m) :: racts)) := by
  have hty' : (ev.type == some "m.room.message") = true := by
    rw [hty]; rfl
  have hpe : process_event env pfx rid ev =
      .ok [.handlerCall n rid v,
           .sendMessage room.id ("COMMAND ERROR:\n" ++ m)] := by
    unfold process_event
    simp only [hty', if_true, hbody, hparse, hst, hroom, hcmd, hh]
  refine ⟨hpe, fun rest racts hr => ?_⟩
  unfold process_room
  simp only [hpe, hr]
  rfl

/-- Concrete environment whose only command "boom" always raises "kaput". -/
def envC4 : SyncEnv :=
  { room_state := fun _ =>
      .ok [{ type := some "m.room.name", room_id := some "!r:hs",
             content := some { name := some "Room" } }],
    commands := fun n =>
      if n == "boom" then some (fun _ _ _ => .error "kaput") else none }

/-- C4 witness: the failing handler "boom" on a concrete event yields the
error reply in the room derived from state and processing continues. -/
theorem c4_handler_error_witness :
    process_event envC4 "!" "!r:hs" (msgEvt "!boom now") =
      .ok [.handlerCall "boom" "!r:hs" "now",
           .sendMessage "!r:hs" ("COMMAND ERROR:\n" ++ "kaput")] ∧
    (∀ rest racts, process_room envC4 "!" "!r:hs" rest = .ok racts →
      process_room envC4 "!" "!r:hs" (msgEvt "!boom now" :: rest) =
        .ok (.handlerCall "boom" "!r:hs" "now" ::
             .sendMessage "!r:hs" ("COMMAND ERROR:\n" ++ "kaput") :: racts)) :=
  c4_handler_error_reply envC4 "!" "!r:hs" (msgEvt "!boom now") "!boom now"
    "boom" "now"
    [{ type := some "m.room.name", room_id := some "!r:hs",
       content := some { name := some "Room" } }]
    ⟨"!r:hs", "Room", none, none, []⟩
    (fun _ _ _ => .error "kaput") "kaput"
    rfl rfl rfl rfl rfl rfl rfl

/-! ## C5: fresh-start bootstrap -/

/-- C5 counterexample: on the typical fresh start (no cursor file at all)
the cursor obtained by the zero-timeout sync is NOT persisted before the
poll loop: the store is still absent after the bootstrap, refuting "the
next-batch cursor ... is persisted to the store before the poll loop is
entered". -/
theorem c5_bootstrap_counterexample :
    load_next_batch none = none ∧
    (bootstrap none { next_batch := some "s1", rooms := [] }).1.store = none ∧
    (bootstrap none { next_batch := some "s1", rooms := [] }).1.store ≠ some "s1" :=
  ⟨rfl, rfl, by decide⟩

/-- C5 amended: when `load()` yields no cursor, the engine performs exactly
one zero-timeout sync, processes none of its events (the trace holds no
dispatch), and carries its `next_batch` into the poll loop; the cursor is
persisted before the loop only when the cursor file already exists (for
example pre-created blank) — with an absent file the save is a silent
no-op. -/
theorem c5_bootstrap_amended (store : Option String) (resp : SyncResponse)
    (h : load_next_batch store = none) :
    (bootstrap store resp).2 = [.syncCall none 0, .saveCursor resp.next_batch] ∧
    (∀ a ∈ (bootstrap store resp).2, isHandlerCall a = false) ∧
    (bootstrap store resp).1.next_batch = resp.next_batch ∧
    (∀ c t, store = some c → resp.next_batch = some t →
      (bootstrap store resp).1.store = some t) ∧
    (store = none → (bootstrap store resp).1.store = none) := by
  have hb : bootstrap store resp =
      ({ next_batch := resp.next_batch,
         store := save_next_batch store resp.next_batch },
       [.syncCall none 0, .saveCursor resp.next_batch]) := by
    unfold bootstrap
    rw [h]
  rw [hb]
  refine ⟨rfl, ?_, rfl, fun c t hc ht => ?_, fun hn => ?_⟩
  · intro a ha
    rcases List.mem_cons.mp ha with h1 | h2
    · subst h1; rfl
    · rcases List.mem_cons.mp h2 with h3 | h4
      · subst h3; rfl
      · exact absurd h4 (List.not_mem_nil a)
  · rw [hc, ht]; rfl
  · rw [hn]; rfl

/-- C5 witness: the amended bootstrap evaluated on a pre-created blank
cursor file and an initial sync returning cursor "s1". -/
theorem c5_bootstrap_witness :
    (bootstrap (some "") { next_batch := some "s1", rooms := [] }).2 =
      [.syncCall none 0, .saveCursor (some "s1")] ∧
    (∀ a ∈ (bootstrap (some "") { next_batch := some "s1", rooms := [] }).2,
      isHandlerCall a = false) ∧
    (bootstrap (some "") { next_batch := some "s1", rooms := [] }).1.next_batch =
      some "s1" ∧
    (∀ c t, (some "" : Option String) = some c →
      (some "s1" : Option String) = some t →
      (bootstrap (some "") { next_batch := some "s1", rooms := [] }).1.store = some t) ∧
    ((some "" : Option String) = none →
      (bootstrap (some "") { next_batch := some "s1", rooms := [] }).1.store = none) :=
  c5_bootstrap_amended (some "") { next_batch := some "s1", rooms := [] } rfl

/-! ## C10: missing "m.room.name" in a matched command's room -/

/-- C10: a state snapshot without an "m.room.name" event makes
`from_state_events` raise; since the room is built before the handler
try-block, for a matched command in such a room the error is not turned into
a chat reply but propagates: the room's processing, and with it the whole
loop iteration, ends in that error. -/
theorem c10_missing_room_name :
    (∀ st : List MEvent,
      st.find? (fun e => e.type == some "m.room.name") = none →
      from_state_events st = .error "unable to find \"m.room.name\" state-event") ∧
    (∀ (env : SyncEnv) (pfx rid : String) (ev : MEvent) (rest : List MEvent)
        (body n v : String) (st : List MEvent),
      ev.type = some "m.room.message" → bodyOf ev = .str body →
      parseCmd pfx body = some (n, v) → (env.commands n).isSome = true →
      env.room_state rid = .ok st →
      st.find? (fun e => e.type == some "m.room.name") = none →
      process_room env pfx rid (ev :: rest) =
        .error "unable to find \"m.room.name\" state-event") ∧
    (∀ (env : SyncEnv) (pfx rid : String) (ev : MEvent) (rest : List MEvent)
        (body n v : String) (st : List MEvent) (s : LoopState)
        (nb : Option String) (more : List RoomSync),
      ev.type = some "m.room.message" → bodyOf ev = .str body →
      parseCmd pfx body = some (n, v) → (env.commands n).isSome = true →
      env.room_state rid = .ok st →
      st.find? (fun e => e.type == some "m.room.name") = none →
      sync_step env pfx s { next_batch := nb, rooms := ⟨rid, ev :: rest⟩ :: more } =
        .error "unable to find \"m.room.name\" state-event") := by
  have part1 : ∀ st : List MEvent,
      st.find? (fun e => e.type == some "m.room.name") = none →
      from_state_events st = .error "unable to find \"m.room.name\" state-event" := by
    intro st hfind
    unfold from_state_events
    rw [hfind]
  have part2 : ∀ (env : SyncEnv) (pfx rid : String) (ev : MEvent)
      (rest : List MEvent) (body n v : String) (st : List MEvent),
      ev.type = some "m.room.message" → bodyOf ev = .str body →
      parseCmd pfx body = some (n, v) → (env.commands n).isSome = true →
      env.room_state rid = .ok st →
      st.find? (fun e => e.type == some "m.room.name") = none →
      process_room env pfx rid (ev :: rest) =
        .error "unable to find \"m.room.name\" state-event" := by
    intro env pfx rid ev rest body n v st hty hbody hparse _ hst hfind
    have hty' : (ev.type == some "m.room.message") = true := by
      rw [hty]; rfl
    have hpe : process_event env pfx rid ev =
        .error "unable to find \"m.room.name\" state-event" := by
      unfold process_event
      simp only [hty', if_true, hbody, hparse, hst, part1 st hfind]
    unfold process_room
    rw [hpe]
  refine ⟨part1, part2, ?_⟩
  intro env pfx rid ev rest body n v st s nb more hty hbody hparse hsome hst hfind
  unfold sync_step
  have hpb : process_batch env pfx (⟨rid, ev :: rest⟩ :: more) =
      .error "unable to find \"m.room.name\" state-event" := by
    unfold process_batch
    rw [part2 env pfx rid ev rest body n v st hty hbody hparse hsome hst hfind]
  rw [hpb]

/-- Environment for the C10 witness: a registered command "x" in a room
whose state snapshot has no "m.room.name" event. -/
def envC10 : SyncEnv :=
  { room_state := fun _ => .ok [],
    commands := fun n =>
      if n == "x" then some (fun _ _ _ => .ok ()) else none }

/-- C10 witness: the missing-name error at a concrete matched command: the
empty snapshot fails `from_state_events` and the whole iteration errors. -/
theorem c10_missing_room_name_witness :
    from_state_events [] = .error "unable to find \"m.room.name\" state-event" ∧
    process_room envC10 "!" "!r:hs" [msgEvt "!x go"] =
      .error "unable to find \"m.room.name\" state-event" ∧
    sync_step envC10 "!" ⟨some "s1", some "s0"⟩
        { next_batch := some "s2", rooms := [⟨"!r:hs", [msgEvt "!x go"]⟩] } =
      .error "unable to find \"m.room.name\" state-event" :=
  ⟨c10_missing_room_name.1 [] rfl,
   c10_missing_room_name.2.1 envC10 "!" "!r:hs" (msgEvt "!x go") [] "!x go" "x" "go"
     [] rfl rfl rfl rfl rfl rfl,
   c10_missing_room_name.2.2 envC10 "!" "!r:hs" (msgEvt "!x go") [] "!x go" "x" "go"
     [] ⟨some "s1", some "s0"⟩ (some "s2") [] rfl rfl rfl rfl rfl rfl⟩

/-! ## Call orchestrator: join (`MatrixBot.join_call`, lines 80-104) -/

/-- The OpenID token dataclass (`MatrixOpenIDToken`). -/
structure MatrixOpenIDToken where
  access_token : String
  token_type : String
  matrix_server_name : String
  expires_in : Nat
deriving DecidableEq, Repr

/-- The RTC credential dataclass (`MatrixRTCToken`). -/
structure MatrixRTCToken where
  url : String
  jwt : String
deriving DecidableEq, Repr

/-- The media-session triple returned by `RTCHandler.join_room`
(`MatrixCallRTC`); the SDK objects are opaque handles here. -/
structure MatrixCallRTC where
  room_handle : Nat
  audio_source : Nat
  audio_track : Nat
deriving DecidableEq, Repr

/-- `MatrixCall`: the joined call. -/
structure MatrixCall where
  room : MatrixRoom
  rtc : MatrixCallRTC
deriving DecidableEq, Repr

/-- The four network steps of `join_call`, in source order. -/
inductive JoinStep where
  | openid
  | getToken
  | announce
  | media
deriving DecidableEq, Repr

/-- Collaborators of `join_call`; `F` is the opaque type of the
`foci_preferred` argument passed through to the state write. -/
structure JoinEnv (F : Type) where
  user_openid_token : String → Except String MatrixOpenIDToken
  rtc_get_token : MatrixOpenIDToken → String → String → Except String MatrixRTCToken
  user_join_call : String → String → String → F → Except String Unit
  rtc_join_room : MatrixRTCToken → Except String MatrixCallRTC

/-- `MatrixBot.join_call`: four awaited steps in strict order with no
try/except and no cleanup; the result records which steps were attempted
(in order) and the outcome. -/
def join_call {F : Type} (env : JoinEnv F) (user_id device_id : String)
    (room : MatrixRoom) (foci : F) : List JoinStep × Except String MatrixCall :=
  match env.user_openid_token user_id with
  | .error m => ([.openid], .error m)
  | .ok tok =>
    match env.rtc_get_token tok room.id device_id with
    | .error m => ([.openid, .getToken], .error m)
    | .ok rtok =>
      match env.user_join_call user_id device_id room.id foci with
      | .error m => ([.openid, .getToken, .announce], .error m)
      | .ok _ =>
        match env.rtc_join_room rtok with
        | .error m => ([.openid, .getToken, .announce, .media], .error m)
        | .ok sess => ([.openid, .getToken, .announce, .media], .ok ⟨room, sess⟩)

/-- C2: the join is a strictly ordered four-step sequence (the attempted
steps are always an initial segment of openid, getToken, announce, media),
and when the signaling-credential exchange fails the membership state write
and the media connect are never attempted, the error surfaces to the caller
and nothing else (no cleanup) is performed. -/
theorem c2_join_short_circuit {F : Type} (env : JoinEnv F)
    (user_id device_id : String) (room : MatrixRoom) (foci : F)
    (tok : MatrixOpenIDToken) (m : String)
    (h1 : env.user_openid_token user_id = .ok tok)
    (h2 : env.rtc_get_token tok room.id device_id = .error m) :
    join_call env user_id device_id room foci =
      ([.openid, .getToken], .error m) ∧
    (∀ (G : Type) (env2 : JoinEnv G) (u d : String) (r : MatrixRoom) (g : G),
      (join_call env2 u d r g).1 <+:
        [JoinStep.openid, .getToken, .announce, .media]) := by
  constructor
  · unfold join_call
    simp only [h1, h2]
  · intro G env2 u d r g
    unfold join_call
    cases ho : env2.user_openid_token u with
    | error m2 => simp only [ho]; exact ⟨[.getToken, .announce, .media], rfl⟩
    | ok tok2 =>
      simp only [ho]
      cases hg : env2.rtc_get_token tok2 r.id d with
      | error m2 => simp only [hg]; exact ⟨[.announce, .media], rfl⟩
      | ok rtok2 =>
        simp only [hg]
        cases hj : env2.user_join_call u d r.id g with
        | error m2 => simp only [hj]; exact ⟨[.media], rfl⟩
        | ok u2 =>
          simp only [hj]
          cases hm : env2.rtc_join_room rtok2 with
          | error m2 => simp only [hm]; exact List.prefix_refl _
          | ok sess2 => simp only [hm]; exact List.prefix_refl _

/-- Concrete join environment whose credential exchange fails. -/
def envC2 : JoinEnv Unit :=
  { user_openid_token := fun _ => .ok ⟨"at", "Bearer", "hs", 3600⟩,
    rtc_get_token := fun _ _ _ => .error "sfu down",
    user_join_call := fun _ _ _ _ => .ok (),
    rtc_join_room := fun _ => .ok ⟨0, 0, 0⟩ }

/-- C2 witness: the short-circuit at the failing credential exchange on a
concrete environment. -/
theorem c2_join_short_circuit_witness :
    join_call envC2 "@bot:hs" "DEV" ⟨"!r:hs", "Room", none, none, []⟩ () =
      ([.openid, .getToken], .error "sfu down") ∧
    (∀ (G : Type) (env2 : JoinEnv G) (u d : String) (r : MatrixRoom) (g : G),
      (join_call env2 u d r g).1 <+:
        [JoinStep.openid, .getToken, .announce, .media]) :=
  c2_join_short_circuit envC2 "@bot:hs" "DEV" ⟨"!r:hs", "Room", none, none, []⟩ ()
    ⟨"at", "Bearer", "hs", 3600⟩ "sfu down" rfl rfl

/-! ## Call orchestrator: bulk disconnect
(`MatrixBot.disconnect_from_all_calls`, lines 111-133) -/

/-- Errors of the homeserver transport: `httpx.HTTPStatusError` (raised by
`raise_for_status`) versus any other exception. -/
inductive HsError where
  | httpStatus (code : Nat)
  | other (m : String)
deriving DecidableEq, Repr

/-- Collaborators of the disconnect scan. -/
structure DisconnectEnv where
  joined_room_ids : List String
  room_state : String → Except HsError (List MEvent)
  leave : String → Except HsError Unit

/-- The per-event filter of the scan: a call-membership state event whose
state key starts with this bot's own `_{user_id}_` marker. -/
def isOwnCallMember (user_id : String) (e : MEvent) : Bool :=
  e.type == some "org.matrix.msc3401.call.member" &&
  strStartsWith (e.state_key.getD "") ("_" ++ user_id ++ "_")

/-- The inner event loop of the scan for one room: issue the single-step
leave for each matching event, accumulating the rooms left; an
`HTTPStatusError` from leave is caught by the room's `try` (the room is
abandoned, the scan goes on), any other error propagates. -/
def leaves_in_room (env : DisconnectEnv) (user_id rid : String) :
    List MEvent → List String → Except String (List String)
  | [], acc => .ok acc
  | e :: rest, acc =>
    if isOwnCallMember user_id e then
      match env.leave rid with
      | .ok _ => leaves_in_room env user_id rid rest (acc ++ [rid])
      | .error (.httpStatus _) => .ok acc
      | .error (.other m) => .error m
    else leaves_in_room env user_id rid rest acc

/-- The room loop of the scan: fetch each joined room's state; an
`HTTPStatusError` means "no call here", the room is skipped and the scan
continues; other errors propagate and abort the scan. -/
def disconnect_rooms (env : DisconnectEnv) (user_id : String) :
    List String → List String → Except String (List String)
  | [], acc => .ok acc
  | rid :: rest, acc =>
    match env.room_state rid with
    | .error (.httpStatus _) => disconnect_rooms env user_id rest acc
    | .error (.other m) => .error m
    | .ok evs =>
      match leaves_in_room env user_id rid evs acc with
      | .error m => .error m
      | .ok acc2 => disconnect_rooms env user_id rest acc2

/-- `MatrixBot.disconnect_from_all_calls`: scan every joined room and leave
where the bot's own call-membership key is present; the result lists the
rooms a leave was issued in, in scan order. -/
def disconnect_from_all_calls (env : DisconnectEnv) (user_id : String) :
    Except String (List String) :=
  disconnect_rooms env user_id env.joined_room_ids []

/-- With a succeeding leave, the rooms recorded by the inner event loop are
the accumulator plus one entry per matching event. -/
theorem leaves_in_room_ok (env : DisconnectEnv) (uid rid : String)
    (hleave : env.leave rid = .ok ()) :
    ∀ (evs : List MEvent) (acc : List String),
    ∃ l, leaves_in_room env uid rid evs acc = .ok l ∧
      ∀ x, x ∈ l ↔ x ∈ acc ∨ (x = rid ∧ ∃ e ∈ evs, isOwnCallMember uid e = true) := by
  intro evs
  induction evs with
  | nil =>
    intro acc
    exact ⟨acc, rfl, fun x => by simp⟩
  | cons e rest ih =>
    intro acc
    by_cases he : isOwnCallMember uid e = true
    · obtain ⟨l, hl, hmem⟩ := ih (acc ++ [rid])
      refine ⟨l, ?_, fun x => ?_⟩
      · unfold leaves_in_room
        rw [if_pos he, hleave]
        exact hl
      · rw [hmem x]
        constructor
        · rintro (hx | ⟨hxr, e2, he2, hm2⟩)
          · rcases List.mem_append.mp hx with h1 | h2
            · exact Or.inl h1
            · have hxid : x = rid := by simpa using h2
              exact Or.inr ⟨hxid, e, List.mem_cons_self e rest, he⟩
          · exact Or.inr ⟨hxr, e2, List.mem_cons_of_mem e he2, hm2⟩
        · rintro (hx | ⟨hxr, e2, he2, hm2⟩)
          · exact Or.inl (List.mem_append.mpr (Or.inl hx))
          · exact Or.inl (List.mem_append.mpr (Or.inr (by simp [hxr])))
    · obtain ⟨l, hl, hmem⟩ := ih acc
      refine ⟨l, ?_, fun x => ?_⟩
      · unfold leaves_in_room
        rw [if_neg he]
        exact hl
      · rw [hmem x]
        constructor
        · rintro (hx | ⟨hxr, e2, he2, hm2⟩)
          · exact Or.inl hx
          · exact Or.inr ⟨hxr, e2, List.mem_cons_of_mem e he2, hm2⟩
        · rintro (hx | ⟨hxr, e2, he2, hm2⟩)
          · exact Or.inl hx
          · rcases List.mem_cons.mp he2 with h1 | h2
            · subst h1; exact absurd hm2 he
            · exact Or.inr ⟨hxr, e2, h2, hm2⟩

/-- With a succeeding leave and only HTTP-status state errors, the scan
succeeds and records exactly the rooms whose fetched state holds a matching
membership event. -/
theorem disconnect_rooms_ok (env : DisconnectEnv) (uid : String)
    (hleave : ∀ r, env.leave r = .ok ())
    (hstate : ∀ r m, env.room_state r ≠ .error (.other m)) :
    ∀ (rooms : List String) (acc : List String),
    ∃ l, disconnect_rooms env uid rooms acc = .ok l ∧
      ∀ x, x ∈ l ↔ x ∈ acc ∨ (x ∈ rooms ∧
        ∃ evs, env.room_state x = .ok evs ∧
          ∃ e ∈ evs, isOwnCallMember uid e = true) := by
  intro rooms
  induction rooms with
  | nil =>
    intro acc
    exact ⟨acc, rfl, fun x => by simp⟩
  | cons rid rest ih =>
    intro acc
    cases hrs : env.room_state rid with
    | error err =>
      cases err with
      | other m => exact absurd hrs (hstate rid m)
      | httpStatus code =>
        obtain ⟨l, hl, hmem⟩ := ih acc
        refine ⟨l, ?_, fun x => ?_⟩
        · unfold disconnect_rooms
          simp only [hrs]
          exact hl
        · rw [hmem x]
          constructor
          · rintro (hx | ⟨hxr, hex⟩)
            · exact Or.inl hx
            · exact Or.inr ⟨List.mem_cons_of_mem rid hxr, hex⟩
          · rintro (hx | ⟨hxr, evs2, hevs2, hex⟩)
            · exact Or.inl hx
            · rcases List.mem_cons.mp hxr with h1 | h2
              · subst h1
                rw [hrs] at hevs2
                exact absurd hevs2 (by simp)
              · exact Or.inr ⟨h2, evs2, hevs2, hex⟩
    | ok evs =>
      obtain ⟨l1, hl1, hmem1⟩ := leaves_in_room_ok env uid rid (hleave rid) evs acc
      obtain ⟨l, hl, hmem⟩ := ih l1
      refine ⟨l, ?_, fun x => ?_⟩
      · unfold disconnect_rooms
        simp only [hrs, hl1]
        exact hl
      · rw [hmem x]
        constructor
        · rintro (hx1 | ⟨hxr, hex⟩)
          · rcases (hmem1 x).mp hx1 with hacc | ⟨hxid, e2, he2, hm2⟩
            · exact Or.inl hacc
            · subst hxid
              exact Or.inr ⟨List.mem_cons_self x rest, evs, hrs, e2, he2, hm2⟩
          · exact Or.inr ⟨List.mem_cons_of_mem rid hxr, hex⟩
        · rintro (hacc | ⟨hxmem, evs2, hevs2, e2, he2, hm2⟩)
          · exact Or.inl ((hmem1 x).mpr (Or.inl hacc))
          · rcases List.mem_cons.mp hxmem with h1 | h2
            · subst h1
              rw [hrs] at hevs2
              injection hevs2 with hevs3
              subst hevs3
              exact Or.inl ((hmem1 x).mpr (Or.inr ⟨rfl, e2, he2, hm2⟩))
            · exact Or.inr ⟨h2, evs2, hevs2, e2, he2, hm2⟩

/-- C3: when leaves succeed and every state-fetch failure is an HTTP status
error (not-found/4xx and kin), the bulk disconnect scan never fails as a
whole, skips the rooms whose fetch errored or whose state holds no matching
key, and issues the leave exactly for the joined rooms whose state contains
a call-membership event keyed with this bot's own marker. -/
theorem c3_disconnect_scan (env : DisconnectEnv) (uid : String)
    (hleave : ∀ r, env.leave r = .ok ())
    (hstate : ∀ r m, env.room_state r ≠ .error (.other m)) :
    ∃ l, disconnect_from_all_calls env uid = .ok l ∧
      ∀ rid, rid ∈ l ↔ rid ∈ env.joined_room_ids ∧
        ∃ evs, env.room_state rid = .ok evs ∧
          ∃ e ∈ evs, isOwnCallMember uid e = true := by
  obtain ⟨l, hl, hmem⟩ :=
    disconnect_rooms_ok env uid hleave hstate env.joined_room_ids []
  refine ⟨l, hl, fun rid => ?_⟩
  rw [hmem rid]
  simp

/-- A call-membership state event with the given state key. -/
def memberEvt (k : String) : MEvent :=
  { type := some "org.matrix.msc3401.call.member", state_key := some k }

/-- The spec's three-room scenario: R1 has this bot's key, R2's state fetch
returns not-found, R3 has only another user's key. -/
def envC3 : DisconnectEnv :=
  { joined_room_ids := ["R1", "R2", "R3"],
    room_state := fun r =>
      if r == "R1" then .ok [memberEvt "_@bot:hs_DEV_m.call"]
      else if r == "R3" then .ok [memberEvt "_@alice:hs_DEV_m.call"]
      else .error (.httpStatus 404),
    leave := fun _ => .ok () }

/-- C3 witness: on the three-room scenario the scan leaves in R1 only and
raises nothing. -/
theorem c3_disconnect_scan_witness :
    disconnect_from_all_calls envC3 "@bot:hs" = .ok ["R1"] ∧
    (∃ l, disconnect_from_all_calls envC3 "@bot:hs" = .ok l ∧
      ∀ rid, rid ∈ l ↔ rid ∈ envC3.joined_room_ids ∧
        ∃ evs, envC3.room_state rid = .ok evs ∧
          ∃ e ∈ evs, isOwnCallMember "@bot:hs" e = true) :=
  ⟨rfl,
   c3_disconnect_scan envC3 "@bot:hs" (fun _ => rfl)
    (by
      intro r m h
      simp only [envC3] at h
      split at h
      · exact absurd h (by simp)
      · split at h
        · exact absurd h (by simp)
        · exact absurd h (by simp))⟩

end TDMatrixBot
